import Mathlib

/-!
Verification development for the pokemon-lottery-check repository.

The repository contains two HTTP "passcode bridge" servers (a Gmail REST
bridge in `server.js` and an iCloud IMAP bridge) that scan a mailbox for
one-time-passcode mails and return a 6-digit code subject to freshness and
recipient gating, plus batch scripts that aggregate lottery win/lose mails
per address.  This file gives a shallow embedding of those functions and
proves/refutes the frozen claims about them.

Conventions of the embedding:
- JavaScript strings are Lean `String`s (`List Char` internally); the
  messages the claims quantify over use only BMP characters, for which
  JS UTF-16 indexing and Lean character lists agree.
- JS millisecond timestamps (`Date.now()`, `internalDate`) are `Int`.
- JS `null`/absent JSON fields are `Option.none`.
-/

namespace PokemonBridge

/-! ### Character classes used by the JS regexes -/

/-- ASCII digit test, the `[0-9]` character class of the source regexes. -/
def isAsciiDigit (c : Char) : Bool := '0' ≤ c && c ≤ '9'

/-- The JavaScript `\s` character class (ECMA-262 WhiteSpace ∪ LineTerminator). -/
def jsSpace (c : Char) : Bool :=
  c = ' ' || c = '\t' || c = '\n' || c.toNat = 0x0b || c.toNat = 0x0c || c = '\r' ||
  c.toNat = 0xA0 || c.toNat = 0x1680 || (0x2000 ≤ c.toNat && c.toNat ≤ 0x200A) ||
  c.toNat = 0x2028 || c.toNat = 0x2029 || c.toNat = 0x202F || c.toNat = 0x205F ||
  c.toNat = 0x3000 || c.toNat = 0xFEFF

/-- The JavaScript `\w` character class (`[A-Za-z0-9_]`), used by `\b`. -/
def isWordChar (c : Char) : Bool :=
  ('a' ≤ c && c ≤ 'z') || ('A' ≤ c && c ≤ 'Z') || isAsciiDigit c || c = '_'

/-! ### Normalization performed by `extract6Digits`
`server.js` lines 69-71 (identically in the iCloud bridge):
`String(text).replace(/\r/g, '').replace(/[ \t]+/g, ' ')`. -/

/-- Replace every maximal run of spaces/tabs by a single space
(`.replace(/[ \t]+/g, ' ')`).  The boolean argument records whether the
previous character belonged to such a run. -/
def collapseSpTab : Bool → List Char → List Char
  | _, [] => []
  | inRun, c :: rest =>
    if c = ' ' || c = '\t' then
      if inRun then collapseSpTab true rest else ' ' :: collapseSpTab true rest
    else c :: collapseSpTab false rest

/-- The `norm` value of `extract6Digits`: drop `\r`, collapse space/tab runs. -/
def normalizeJs (l : List Char) : List Char :=
  collapseSpTab false (l.filter (fun c => c ≠ '\r'))

/-! ### The four passcode regexes of `extract6Digits`
(`server.js` lines 74-87; identical in the iCloud bridge lines 101-114).
Each matcher below is the leftmost-match semantics of the corresponding
JS regex, specialised to its literal pattern. -/

/-- `([0-9]{6})` at the current position: the next six characters exist and
are digits (a seventh digit may follow; the quantifier is exact, not
boundary-checked). -/
def sixDigits? (l : List Char) : Option (List Char) :=
  let d := l.take 6
  if d.length = 6 ∧ ∀ c ∈ d, isAsciiDigit c = true then some d else none

/-- `\s*` - greedy space skipping (deterministic in all four patterns since
the token after `\s*` is never itself a `\s` character). -/
def skipJsSpaces (l : List Char) : List Char := l.dropWhile jsSpace

/-- The literal passcode label `パスコード` (5 characters). -/
def passLabel : List Char := "パスコード".data

/-- Attempt `【\s*パスコード\s*】\s*([0-9]{6})` at the current position. -/
def matchBracketAt (l : List Char) : Option (List Char) :=
  if l.head? = some '【' then
    let r1 := skipJsSpaces (l.drop 1)
    if passLabel.isPrefixOf r1 then
      let r2 := skipJsSpaces (r1.drop 5)
      if r2.head? = some '】' then sixDigits? (skipJsSpaces (r2.drop 1))
      else none
    else none
  else none

/-- Attempt `パスコード\s*[:：]?\s*([0-9]{6})` at the current position.
The optional-colon backtracking collapses to: skip spaces, consume one
colon when present, skip spaces, require six digits (if digits are missing
after a consumed colon, the backtracked alternative places the digit
requirement on the colon itself and fails too). -/
def matchColonAt (l : List Char) : Option (List Char) :=
  if passLabel.isPrefixOf l then
    let r1 := skipJsSpaces (l.drop 5)
    let r2 := if r1.head? = some ':' ∨ r1.head? = some '：' then skipJsSpaces (r1.drop 1)
      else r1
    sixDigits? r2
  else none

/-- The lazy `[\s\S]{0,240}?([0-9]{6})` tail: try the six digits after
0, 1, ..., 240 filler characters, preferring the fewest. -/
def nearDigits : Nat → List Char → Option (List Char)
  | 0, l => sixDigits? l
  | Nat.succ f, l =>
    match sixDigits? l with
    | some d => some d
    | none =>
      match l with
      | [] => none
      | _ :: rest => nearDigits f rest

/-- Attempt `パスコード[\s\S]{0,240}?([0-9]{6})` at the current position. -/
def matchNearAt (l : List Char) : Option (List Char) :=
  if passLabel.isPrefixOf l then nearDigits 240 (l.drop 5) else none

/-- Leftmost-match scan: try the position matcher at every suffix, left to
right, as the JS regex engine does. -/
def scanFirst (f : List Char → Option (List Char)) : List Char → Option (List Char)
  | [] => f []
  | c :: rest =>
    match f (c :: rest) with
    | some d => some d
    | none => scanFirst f rest

/-- The right-hand `\b` of pattern 4: no word character directly after
the six digits. -/
def noWordAfter6 (l : List Char) : Bool :=
  match (l.drop 6).head? with
  | none => true
  | some c => !isWordChar c

/-- `\b([0-9]{6})\b` at the current position, given that the previous
character (if any) is not a word character: six digits not followed by a
word character. -/
def bareSixAt (l : List Char) : Option (List Char) :=
  match sixDigits? l with
  | some d => if noWordAfter6 l then some d else none
  | none => none

/-- Leftmost match of `\b([0-9]{6})\b`; `prevWord` records whether the
character before the current position is a word character (false at the
start of the string). -/
def bareScan (prevWord : Bool) : List Char → Option (List Char)
  | [] => none
  | c :: rest =>
    match (if prevWord then none else bareSixAt (c :: rest)) with
    | some d => some d
    | none => bareScan (isWordChar c) rest

/-- Pattern 1 of `extract6Digits`: `/【\s*パスコード\s*】\s*([0-9]{6})/`. -/
def scanBracket (l : List Char) : Option (List Char) := scanFirst matchBracketAt l

/-- Pattern 2 of `extract6Digits`: `/パスコード\s*[:：]?\s*([0-9]{6})/`. -/
def scanColon (l : List Char) : Option (List Char) := scanFirst matchColonAt l

/-- Pattern 3 of `extract6Digits`: `/パスコード[\s\S]{0,240}?([0-9]{6})/`. -/
def scanNear (l : List Char) : Option (List Char) := scanFirst matchNearAt l

/-- Pattern 4 of `extract6Digits`: `/\b([0-9]{6})\b/`. -/
def scanBare (l : List Char) : Option (List Char) := bareScan false l

/-- `extract6Digits` (`server.js` lines 69-88, identical in the iCloud
bridge): normalize, then try the four patterns in priority order with
first-match-wins; empty input (`if (!text) return null`) yields `none`. -/
def extract6Digits (text : String) : Option String :=
  if text = "" then none
  else
    let norm := normalizeJs text.data
    match scanBracket norm with
    | some d => some (String.mk d)
    | none =>
      match scanColon norm with
      | some d => some (String.mk d)
      | none =>
        match scanNear norm with
        | some d => some (String.mk d)
        | none =>
          match scanBare norm with
          | some d => some (String.mk d)
          | none => none

/-! ### String helpers shared by the bridges -/

/-- ASCII lower-casing of one character.  JS `String#toLowerCase` also maps
non-ASCII letters, but every string the embedded code lower-cases is an
email address or raw header, for which the ASCII mapping coincides. -/
def lowerChar (c : Char) : Char :=
  if 'A' ≤ c && c ≤ 'Z' then Char.ofNat (c.toNat + 32) else c

/-- `String#toLowerCase` (ASCII fragment, see `lowerChar`). -/
def lowerStr (s : String) : String := String.mk (s.data.map lowerChar)

/-- `String#trim`: strip JS whitespace from both ends. -/
def jsTrim (s : String) : String :=
  String.mk (((s.data.dropWhile jsSpace).reverse.dropWhile jsSpace).reverse)

/-- `needle` occurs as a contiguous run inside `hay`. -/
def containsList (needle : List Char) : List Char → Bool
  | [] => needle.isPrefixOf []
  | c :: rest => needle.isPrefixOf (c :: rest) || containsList needle rest

/-- `String#includes`: substring containment. -/
def containsStr (hay needle : String) : Bool :=
  containsList needle.data hay.data

/-- The characters strictly before the first `>` of the list, or `none`
when the list holds no `>`. -/
def takeBeforeGt : List Char → Option (List Char)
  | [] => none
  | c :: rest =>
    if c = '>' then some []
    else
      match takeBeforeGt rest with
      | some t => some (c :: t)
      | none => none

/-- Leftmost match of `/<([^>]+)>/`, returning the captured group: the
first `<` that is followed by at least one non-`>` character and then a
`>`.  On failure at a `<` the scan resumes one character later, exactly as
the JS engine advances its start position. -/
def angleCapture : List Char → Option (List Char)
  | [] => none
  | c :: rest =>
    if c = '<' then
      match takeBeforeGt rest with
      | some inner => if inner = [] then angleCapture rest else some inner
      | none => angleCapture rest
    else angleCapture rest

/-- `String#split(',')`: the comma-separated pieces, empty pieces kept
(`''.split(',')` is `['']`). -/
def splitOnComma : List Char → List (List Char)
  | [] => [[]]
  | c :: rest =>
    let r := splitOnComma rest
    if c = ',' then [] :: r
    else
      match r with
      | h :: t => (c :: h) :: t
      | [] => [[c]]

/-- `extractEmails` as written in the lottery scripts (no lower-casing):
split the header on commas, trim each piece, prefer the `<...>` capture,
trim again, and drop empty results.  (`gmail_check.js`/`part_000` lines
17-27; `server.js` lines 56-67 adds a final lower-casing, see
`extractEmails` below.) -/
def extractEmailsRaw (headerValue : String) : List String :=
  if headerValue = "" then []
  else
    ((splitOnComma headerValue.data).map (fun piece =>
      let t := jsTrim (String.mk piece)
      let r := match angleCapture t.data with
        | some inner => String.mk inner
        | none => t
      jsTrim r)).filter (fun s => s ≠ "")

/-- `extractEmails` of the bridge servers (`server.js` lines 56-67, iCloud
bridge lines 67-78): the raw extraction followed by `.map(toLowerCase)`. -/
def extractEmails (headerValue : String) : List String :=
  (extractEmailsRaw headerValue).map lowerStr

/-! ### The Gmail bridge (`server.js`) -/

/-- A Gmail message as consumed by `getCode`: its `internalDate`
(`Number(msg.data.internalDate || 0)`, so `0` when absent), its header
list, its snippet, and its body text.  `bodyText` stands for
`decodeBodyFromPayload(msg.data.payload)` (MIME walk, text/plain
preferred, base64url decode); no claim depends on that decoding, so the
already-decoded text is the field. -/
structure GmailMsg where
  internalDate : Int
  headers : List (String × String)
  snippet : String
  bodyText : String
deriving Repr, DecidableEq

/-- `getHeader` (`server.js` lines 51-54): first header whose name matches
case-insensitively; `''` when absent. -/
def getHeader (headers : List (String × String)) (name : String) : String :=
  match headers.find? (fun h => lowerStr h.1 = lowerStr name) with
  | some h => h.2
  | none => ""

/-- The `addrPool` of `getCode` (`server.js` lines 241-245): To,
Delivered-To and X-Original-To extractions, in that order. -/
def gmailRecipientPool (m : GmailMsg) : List String :=
  extractEmails (getHeader m.headers "To") ++
  extractEmails (getHeader m.headers "Delivered-To") ++
  extractEmails (getHeader m.headers "X-Original-To")

/-- `minTs` of the Gmail `getCode` (`server.js` lines 203-204):
`Math.max(Number(afterTs || 0), now - LAST_MINUTES * 60 * 1000)`. -/
def gmailMinTs (afterTs now lastMinutes : Int) : Int :=
  max afterTs (now - lastMinutes * 60 * 1000)

/-- Abstraction of JS `new Date(ms).toISOString()`: only the fact that the
rendered timestamp is interpolated into a non-empty diagnostic string
matters to any claim, so the rendering itself is the decimal form. -/
def isoOfMs (ms : Int) : String := toString ms

/-- The JSON object a bridge `/code` handler serialises: both the
`{found:true, code, where, internalDate}` and the
`{found:false, code:null, reason, ...}` shapes.  `whence` is the JSON
field named `where` (a Lean keyword). -/
structure CodeResult where
  found : Bool
  code : Option String
  whence : Option String
  internalDate : Option Int
  reason : Option String
  minTs : Option Int
  minTsIso : Option String
deriving Repr, DecidableEq

/-- The code/whence/internalDate triple produced for a hit. -/
structure FoundInfo where
  code : String
  whence : String
  internalDate : Int
deriving Repr, DecidableEq

/-- The message loop of the Gmail `getCode` (`server.js` lines 219-264):
skip messages that are too old (only when their `internalDate` is
non-zero), whose subject lacks the keyword, or that fail the optional
recipient filter; on the first message whose snippet or body yields a
6-digit code, return it.  The matched message is returned alongside the
hit so that theorems can speak about it. -/
def gmailScan (kw want : String) (minTs : Int) : List GmailMsg → Option (GmailMsg × FoundInfo)
  | [] => none
  | m :: rest =>
    if m.internalDate ≠ 0 ∧ m.internalDate < minTs then
      gmailScan kw want minTs rest
    else if containsStr (jsTrim (getHeader m.headers "Subject")) kw = false then
      gmailScan kw want minTs rest
    else if want ≠ "" ∧ gmailRecipientPool m ≠ [] ∧ want ∉ gmailRecipientPool m then
      gmailScan kw want minTs rest
    else
      match extract6Digits m.snippet with
      | some code => some (m, ⟨code, "snippet", m.internalDate⟩)
      | none =>
        match extract6Digits m.bodyText with
        | some code => some (m, ⟨code, "body", m.internalDate⟩)
        | none => gmailScan kw want minTs rest

/-- `getCode` of the Gmail bridge (`server.js` lines 196-272).  `msgs` is
the message list the Gmail query returned (newest first); `kw` is the
`SUBJECT_KEYWORD` constant; `now` is `Date.now()` at the start of the
request. -/
def gmailGetCode (kw : String) (lastMinutes now : Int) (toEmail : String)
    (afterTs : Int) (msgs : List GmailMsg) : CodeResult :=
  let want := jsTrim (lowerStr toEmail)
  let minTs := gmailMinTs afterTs now lastMinutes
  if msgs = [] then
    ⟨false, none, none, none, some "no_messages", none, none⟩
  else
    match gmailScan kw want minTs msgs with
    | some (_, f) => ⟨true, some f.code, some f.whence, some f.internalDate, none, none, none⟩
    | none =>
      ⟨false, none, none, none, some ("no_code_after_" ++ isoOfMs minTs), some minTs, none⟩

/-! ### The iCloud bridge (the IMAP server source) -/

/-- An iCloud message as consumed by the IMAP `getCode`.  `envTo`/`envCc`/
`envBcc` are the results of `normalizeToList` on the envelope address
fields; `parsedTo`/`parsedCc`/`parsedBcc` those on the `simpleParser`
output; `hdrTo`/`hdrDeliveredTo`/`hdrXOriginalTo` the raw header-map
values (`''` when absent); `text` is `parsed.text || ''` and `html` is
`parsed.html ? String(parsed.html) : ''`.  `internalDate` is `0` when the
fetch reported none. -/
structure IcloudMsg where
  internalDate : Int
  envSubject : String
  envTo : List String
  envCc : List String
  envBcc : List String
  parsedTo : List String
  parsedCc : List String
  parsedBcc : List String
  hdrTo : String
  hdrDeliveredTo : String
  hdrXOriginalTo : String
  text : String
  html : String
deriving Repr, DecidableEq

/-- The envelope `pool` of the iCloud `getCode` (lines 261-264):
to ++ cc ++ bcc, empties dropped. -/
def icloudEnvPool (m : IcloudMsg) : List String :=
  (m.envTo ++ m.envCc ++ m.envBcc).filter (fun s => s ≠ "")

/-- The fallback `pool2` of the iCloud `getCode` (lines 278-295): parsed
to/cc/bcc plus extractions from the lower-cased raw To, Delivered-To and
X-Original-To headers, empties dropped. -/
def icloudParsedPool (m : IcloudMsg) : List String :=
  (m.parsedTo ++ m.parsedCc ++ m.parsedBcc ++
   extractEmails (lowerStr m.hdrTo) ++
   extractEmails (lowerStr m.hdrDeliveredTo) ++
   extractEmails (lowerStr m.hdrXOriginalTo)).filter (fun s => s ≠ "")

/-- Code extraction from an iCloud message body (lines 318-332 and
343-357, two verbatim copies in the source): first `parsed.text`, then
`text + "\n" + html`. -/
def icloudBodyCode (m : IcloudMsg) : Option FoundInfo :=
  match extract6Digits m.text with
  | some code => some ⟨code, "text", m.internalDate⟩
  | none =>
    match extract6Digits (m.text ++ "\n" ++ m.html) with
    | some code => some ⟨code, "parsed", m.internalDate⟩
    | none => none

/-- The clamped watermark of the iCloud `getCode` (lines 210-214):
`afterTs` is replaced by `now` only when it exceeds `now + 60_000`. -/
def icloudClampAfter (afterTs now : Int) : Int :=
  if afterTs > now + 60000 then now else afterTs

/-- `minTs` of the iCloud `getCode` (lines 216-217). -/
def icloudMinTs (afterTs now lastMinutes : Int) : Int :=
  max (icloudClampAfter afterTs now) (now - lastMinutes * 60 * 1000)

/-- The message loop of the iCloud `getCode` (lines 239-360): age and
subject gates as in the Gmail bridge, then recipient gating with the
envelope pool first and the parsed-header pool as fallback; a message
whose pools are both empty under an active filter is rejected
(`recipient_unknown_reject`). -/
def icloudScan (kw want : String) (minTs : Int) : List IcloudMsg → Option (IcloudMsg × FoundInfo)
  | [] => none
  | m :: rest =>
    if m.internalDate ≠ 0 ∧ m.internalDate < minTs then
      icloudScan kw want minTs rest
    else if containsStr (jsTrim m.envSubject) kw = false then
      icloudScan kw want minTs rest
    else if want ≠ "" ∧ icloudEnvPool m ≠ [] ∧ want ∉ icloudEnvPool m then
      icloudScan kw want minTs rest
    else if want ≠ "" ∧ icloudEnvPool m = [] then
      if icloudParsedPool m = [] then icloudScan kw want minTs rest
      else if want ∉ icloudParsedPool m then icloudScan kw want minTs rest
      else
        match icloudBodyCode m with
        | some f => some (m, f)
        | none => icloudScan kw want minTs rest
    else
      match icloudBodyCode m with
      | some f => some (m, f)
      | none => icloudScan kw want minTs rest

/-- `getCode` of the iCloud bridge (lines 206-370).  `msgs` is the UID
search result in mailbox order; the scan takes the newest
`min(scanLimit, length)` of them, newest first
(`uids.slice(-Math.min(CODE_SCAN_LIMIT, uids.length)).reverse()`; note
`slice(-0)` is the whole list, reproduced by the `k = 0` case). -/
def icloudGetCode (kw : String) (lastMinutes : Int) (scanLimit : Nat) (now : Int)
    (toEmail : String) (afterTs : Int) (msgs : List IcloudMsg) : CodeResult :=
  let want := jsTrim (lowerStr toEmail)
  let minTs := icloudMinTs afterTs now lastMinutes
  if msgs = [] then
    ⟨false, none, none, none, some "no_messages", none, none⟩
  else
    let k := min scanLimit msgs.length
    let newest := (if k = 0 then msgs else msgs.drop (msgs.length - k)).reverse
    match icloudScan kw want minTs newest with
    | some (_, f) => ⟨true, some f.code, some f.whence, some f.internalDate, none, none, none⟩
    | none =>
      ⟨false, none, none, none, some ("no_code_after_" ++ isoOfMs minTs), some minTs,
       some (isoOfMs minTs)⟩

/-- The default `SUBJECT_KEYWORD` (fixed in `server.js`, the
env-overridable default of the iCloud bridge). -/
def SUBJECT_KEYWORD : String := "ログイン用パスコード"

/-! ### Startup and request handling -/

/-- The filesystem facts `authorize` inspects (`server.js` lines 123-142):
whether the credentials file and the token file exist, and whether the
credentials JSON carries an `installed` or `web` key. -/
structure GmailEnv where
  credentialsExists : Bool
  tokenExists : Bool
  credentialsHasKey : Bool
deriving Repr, DecidableEq

/-- `authorize` (`server.js` lines 123-142): throws on a missing
credentials file, a missing token file, or a key-less credentials file;
otherwise yields an authenticated client (abstracted to `Unit`). -/
def authorize (env : GmailEnv) : Except String Unit :=
  if env.credentialsExists = false then .error "Missing credentials"
  else if env.tokenExists = false then .error "Missing token"
  else if env.credentialsHasKey = false then
    .error "Invalid credentials file (missing installed/web)"
  else .ok ()

/-- `server.js` lines 274-305: the HTTP server is created and `.listen` is
called unconditionally at module load; no credential check runs before
listening (`authorize` is only invoked inside the `/recent` and `/code`
handlers), so listening does not depend on the environment. -/
def gmailServerListens (_env : GmailEnv) : Bool := true

/-- The `/code` handler of the Gmail bridge (`server.js` lines 290-295
with the surrounding try/catch): an `authorize` failure is caught and
answered with status 500; otherwise the `getCode` result is sent with
status 200. -/
def gmailHandleCode (env : GmailEnv) (kw : String) (lastMinutes now : Int)
    (toEmail : String) (after : Int) (msgs : List GmailMsg) : Nat × Option CodeResult :=
  match authorize env with
  | .error _ => (500, none)
  | .ok _ => (200, some (gmailGetCode kw lastMinutes now toEmail after msgs))

/-- The credentials the iCloud bridge reads from the environment. -/
structure IcloudEnv where
  icloudUser : String
  icloudAppPassword : String
deriving Repr, DecidableEq

/-- The credential guard of `withImap` (iCloud bridge lines 135-138):
`withImap` throws when either value is empty. -/
def icloudCredsOk (env : IcloudEnv) : Bool :=
  env.icloudUser ≠ "" && env.icloudAppPassword ≠ ""

/-- iCloud bridge lines 373-415: as in the Gmail bridge, `.listen` is
called unconditionally at module load; the credential check lives inside
`withImap`, which only runs per request. -/
def icloudServerListens (_env : IcloudEnv) : Bool := true

/-- The `/code` handler of the iCloud bridge (lines 397-408): a `withImap`
credential failure is caught and answered with status 500; otherwise the
`getCode` result is sent with status 200. -/
def icloudHandleCode (env : IcloudEnv) (kw : String) (lastMinutes : Int)
    (scanLimit : Nat) (now : Int) (toEmail : String) (after : Int)
    (msgs : List IcloudMsg) : Nat × Option CodeResult :=
  if icloudCredsOk env then
    (200, some (icloudGetCode kw lastMinutes scanLimit now toEmail after msgs))
  else (500, none)

/-! ### The lottery aggregation scripts -/

/-- A lottery mail as consumed by `listPokemonLottery` in the Gmail
scripts (`part_000` lines 116-168, `part_001` lines 136-172): the raw
Subject, From and To header values. -/
structure LotteryMsg where
  subject : String
  fromH : String
  toH : String
deriving Repr, DecidableEq

/-- `decideTargetEmails` (`part_000` lines 32-37, `part_001` lines 40-45):
From-extraction for hotmail/outlook senders
(`/hotmail\.com|outlook\.com/i.test(from)`), To-extraction otherwise. -/
def decideTargetEmails (fromA toHeader : String) : List String :=
  if containsStr (lowerStr fromA) "hotmail.com" || containsStr (lowerStr fromA) "outlook.com" then
    extractEmailsRaw fromA
  else extractEmailsRaw toHeader

/-- Win classification of the Gmail lottery loop: the trimmed subject
contains `当選`. -/
def gmailLotteryWin (m : LotteryMsg) : Bool :=
  containsStr (jsTrim m.subject) "当選"

/-- Lose classification of the Gmail lottery loop: not a win, and the
trimmed subject contains `抽選結果` (`part_000` uses if/else-if, `part_001`
`!isWin && ...`; both give lose priority to win). -/
def gmailLotteryLose (m : LotteryMsg) : Bool :=
  !(gmailLotteryWin m) && containsStr (jsTrim m.subject) "抽選結果"

/-- The mapping targets of one Gmail lottery mail. -/
def gmailLotteryTargets (m : LotteryMsg) : List String :=
  decideTargetEmails (jsTrim m.fromH) (jsTrim m.toH)

/-- The per-address result map (`resultMap`, a JS `Map` from email to
`'o'`/`'x'`), as a function. -/
abbrev ResultMap := String → Option Char

/-- `resultMap.set(key, v)`. -/
def setResult (mp : ResultMap) (key : String) (v : Char) : ResultMap :=
  fun k => if k = key then some v else mp k

/-- The body of the inner `for (const email of targetEmails)` loop shared
verbatim by all three lottery scripts (`part_000` lines 156-167,
`part_001` lines 164-171, `part_002` lines 88-98): a win always writes
`'o'`; a lose writes `'x'` only when the current value is not `'o'`. -/
def updateOne (isWin isLose : Bool) (acc : ResultMap) (email : String) : ResultMap :=
  if isWin then setResult acc email 'o'
  else if isLose then
    (if acc email ≠ some 'o' then setResult acc email 'x' else acc)
  else acc

/-- The fold of `updateOne` over the mail's target addresses. -/
def lotteryUpdate (isWin isLose : Bool) (targets : List String) (mp : ResultMap) : ResultMap :=
  targets.foldl (updateOne isWin isLose) mp

/-- One iteration of the Gmail lottery message loop: classify, skip
unrelated mails and mails with no parsable target, update the map. -/
def gmailLotteryStep (mp : ResultMap) (m : LotteryMsg) : ResultMap :=
  if !(gmailLotteryWin m) && !(gmailLotteryLose m) then mp
  else if gmailLotteryTargets m = [] then mp
  else lotteryUpdate (gmailLotteryWin m) (gmailLotteryLose m) (gmailLotteryTargets m) mp

/-- The final `resultMap` of `listPokemonLottery` over the processed
messages, starting from the empty map. -/
def gmailLotteryMap (msgs : List LotteryMsg) : ResultMap :=
  msgs.foldl gmailLotteryStep (fun _ => none)

/-- A lottery mail as consumed by `listIcloudLottery` (`part_002` lines
70-99): the envelope subject (`msg.envelope.subject || ''`, not trimmed)
and the envelope To addresses (`addr.address`, possibly empty). -/
structure IcloudLotteryMsg where
  subject : String
  toAddrs : List String
deriving Repr, DecidableEq

/-- `isWinSubject` (`part_002` lines 17-20). -/
def isWinSubject (subject : String) : Bool :=
  containsStr subject "【新商品】2025年11月12日号" || containsStr subject "当選"

/-- `isLoseSubject` (`part_002` lines 22-25). -/
def isLoseSubject (subject : String) : Bool :=
  containsStr subject "抽選結果"

/-- Win classification of the iCloud lottery loop. -/
def icloudLotteryWin (m : IcloudLotteryMsg) : Bool := isWinSubject m.subject

/-- Lose classification of the iCloud lottery loop
(`!win && isLoseSubject`). -/
def icloudLotteryLose (m : IcloudLotteryMsg) : Bool :=
  !(icloudLotteryWin m) && isLoseSubject m.subject

/-- The mapping targets of one iCloud lottery mail: its envelope To
addresses with empties skipped (`if (!mail) continue`). -/
def icloudLotteryTargets (m : IcloudLotteryMsg) : List String :=
  m.toAddrs.filter (fun a => a ≠ "")

/-- One iteration of the iCloud lottery message loop. -/
def icloudLotteryStep (mp : ResultMap) (m : IcloudLotteryMsg) : ResultMap :=
  if !(icloudLotteryWin m) && !(icloudLotteryLose m) then mp
  else lotteryUpdate (icloudLotteryWin m) (icloudLotteryLose m) (icloudLotteryTargets m) mp

/-- The final `resultMap` of `listIcloudLottery`. -/
def icloudLotteryMap (msgs : List IcloudLotteryMsg) : ResultMap :=
  msgs.foldl icloudLotteryStep (fun _ => none)


/-! ### Concrete messages used by counterexamples and witnesses -/

/-- A passcode mail whose fetch reported no `internalDate` (the source
coerces that to `0`). -/
def staleGmailMsg : GmailMsg :=
  { internalDate := 0
    headers := [("Subject", "ログイン用パスコード")]
    snippet := "パスコード：123456"
    bodyText := "" }

/-- A fresh passcode mail with no recipient header at all. -/
def bareGmailMsg : GmailMsg :=
  { internalDate := 350000
    headers := [("Subject", "ログイン用パスコード")]
    snippet := "パスコード：654321"
    bodyText := "" }

/-- A fresh passcode mail whose only recipient information is a Cc
header. -/
def ccOnlyGmailMsg : GmailMsg :=
  { internalDate := 350000
    headers := [("Subject", "ログイン用パスコード"), ("Cc", "c@x.com")]
    snippet := "パスコード：123456"
    bodyText := "" }

/-- A fresh passcode mail addressed (To) to the polling client. -/
def matchGmailMsg : GmailMsg :=
  { internalDate := 350000
    headers := [("Subject", "ログイン用パスコード"), ("To", "b@x.com")]
    snippet := "パスコード：123456"
    bodyText := "" }

/-- The iCloud twin of `bareGmailMsg`: fresh, keyword subject, a code in
the body, and every recipient source empty. -/
def bareIcloudMsg : IcloudMsg :=
  { internalDate := 350000
    envSubject := "ログイン用パスコード"
    envTo := [], envCc := [], envBcc := []
    parsedTo := [], parsedCc := [], parsedBcc := []
    hdrTo := "", hdrDeliveredTo := "", hdrXOriginalTo := ""
    text := "パスコード：654321"
    html := "" }

/-- An iCloud passcode mail whose envelope names the polling client. -/
def verifiedIcloudMsg : IcloudMsg :=
  { internalDate := 350000
    envSubject := "ログイン用パスコード"
    envTo := ["a@b.c"], envCc := [], envBcc := []
    parsedTo := [], parsedCc := [], parsedBcc := []
    hdrTo := "", hdrDeliveredTo := "", hdrXOriginalTo := ""
    text := "パスコード：654321"
    html := "" }

/-- The recipient union exactly as claim C2 words it: To/Cc/Bcc plus the
Delivered-To and X-Original-To fallbacks (the Gmail bridge itself never
reads Cc or Bcc; this definition follows the claim, for comparison). -/
def specRecipientUnion (m : GmailMsg) : List String :=
  extractEmails (getHeader m.headers "To") ++
  extractEmails (getHeader m.headers "Cc") ++
  extractEmails (getHeader m.headers "Bcc") ++
  extractEmails (getHeader m.headers "Delivered-To") ++
  extractEmails (getHeader m.headers "X-Original-To")

/-- A lose-classified lottery mail targeting `a@b.c`. -/
def loseLotteryMsg : LotteryMsg :=
  { subject := "抽選結果", fromH := "x@y.z", toH := "a@b.c" }

/-- A capture of the `([0-9]{6})` group: exactly six ASCII digits. -/
def IsSixDigits (d : List Char) : Prop :=
  d.length = 6 ∧ ∀ c ∈ d, isAsciiDigit c = true

/-! ### Evaluation checks on concrete inputs -/

example : extract6Digits "【パスコード】345678 please use this code" = some "345678" := by decide
example : extract6Digits "パスコード：987654" = some "987654" := by decide
example : extract6Digits "no keyword here 123456 done" = some "123456" := by decide
example : extract6Digits "" = none := by decide
example : extract6Digits "1234567" = none := by decide

example : extractEmails "Name <A@B.com>, \"X\" <c@d.com>" = ["a@b.com", "c@d.com"] := by decide
example : extractEmailsRaw "a@b.com" = ["a@b.com"] := by decide
example : extractEmails "" = [] := by decide

/-! ### Shape of extraction results -/

theorem sixDigits?_isSix {l d : List Char} (h : sixDigits? l = some d) :
    IsSixDigits d := by
  simp only [sixDigits?] at h
  split at h
  · cases h
    assumption
  · cases h

theorem nearDigits_isSix : ∀ (fuel : Nat) (l d : List Char),
    nearDigits fuel l = some d → IsSixDigits d := by
  intro fuel
  induction fuel with
  | zero =>
    intro l d h
    exact sixDigits?_isSix h
  | succ f ih =>
    intro l d h
    simp only [nearDigits] at h
    cases hs : sixDigits? l with
    | some x => rw [hs] at h; cases h; exact sixDigits?_isSix hs
    | none =>
      rw [hs] at h
      cases l with
      | nil => cases h
      | cons c rest => exact ih rest d h

theorem scanFirst_isSix {f : List Char → Option (List Char)}
    (hf : ∀ l d, f l = some d → IsSixDigits d) :
    ∀ l d, scanFirst f l = some d → IsSixDigits d := by
  intro l
  induction l with
  | nil =>
    intro d h
    simp only [scanFirst] at h
    exact hf [] d h
  | cons c rest ih =>
    intro d h
    simp only [scanFirst] at h
    cases hm : f (c :: rest) with
    | some x => rw [hm] at h; cases h; exact hf _ _ hm
    | none => rw [hm] at h; exact ih d h

theorem matchBracketAt_isSix : ∀ (l d : List Char),
    matchBracketAt l = some d → IsSixDigits d := by
  intro l d h
  simp only [matchBracketAt] at h
  split at h
  · split at h
    · split at h
      · exact sixDigits?_isSix h
      · cases h
    · cases h
  · cases h

theorem matchColonAt_isSix : ∀ (l d : List Char),
    matchColonAt l = some d → IsSixDigits d := by
  intro l d h
  simp only [matchColonAt] at h
  split at h
  · exact sixDigits?_isSix h
  · cases h

theorem matchNearAt_isSix : ∀ (l d : List Char),
    matchNearAt l = some d → IsSixDigits d := by
  intro l d h
  simp only [matchNearAt] at h
  split at h
  · exact nearDigits_isSix 240 _ d h
  · cases h

theorem bareSixAt_isSix : ∀ (l d : List Char),
    bareSixAt l = some d → IsSixDigits d := by
  intro l d h
  cases hs : sixDigits? l with
  | none => simp only [bareSixAt, hs] at h; cases h
  | some x =>
    simp only [bareSixAt, hs] at h
    split at h
    · cases h; exact sixDigits?_isSix hs
    · cases h

theorem bareScan_isSix : ∀ (l : List Char) (prevWord : Bool) (d : List Char),
    bareScan prevWord l = some d → IsSixDigits d := by
  intro l
  induction l with
  | nil => intro p d h; cases h
  | cons c rest ih =>
    intro p d h
    simp only [bareScan] at h
    cases p with
    | true => exact ih _ d h
    | false =>
      cases hm : bareSixAt (c :: rest) with
      | some x => simp only [hm] at h; cases h; exact bareSixAt_isSix _ _ hm
      | none => simp only [hm] at h; exact ih _ d h

/-- C9: on every input, `extract6Digits` returns either `null` or a string
of exactly six ASCII digits; it never returns a string of any other
shape. -/
theorem extract6Digits_shape (t s : String)
    (h : extract6Digits t = some s) :
    s.length = 6 ∧ ∀ c ∈ s.data, isAsciiDigit c = true := by
  simp only [extract6Digits] at h
  split at h
  · cases h
  · cases h1 : scanBracket (normalizeJs t.data) with
    | some d =>
      simp only [h1] at h
      cases h
      exact (scanFirst_isSix matchBracketAt_isSix) _ _ h1
    | none =>
      simp only [h1] at h
      cases h2 : scanColon (normalizeJs t.data) with
      | some d =>
        simp only [h2] at h
        cases h
        exact (scanFirst_isSix matchColonAt_isSix) _ _ h2
      | none =>
        simp only [h2] at h
        cases h3 : scanNear (normalizeJs t.data) with
        | some d =>
          simp only [h3] at h
          cases h
          exact (scanFirst_isSix matchNearAt_isSix) _ _ h3
        | none =>
          simp only [h3] at h
          cases h4 : scanBare (normalizeJs t.data) with
          | some d =>
            simp only [h4] at h
            cases h
            exact bareScan_isSix _ _ _ h4
          | none => simp only [h4] at h; cases h

/-- Witness for C9 at a concrete input. -/
theorem extract6Digits_shape_witness :
    ("987654" : String).length = 6 ∧
    ∀ c ∈ ("987654" : String).data, isAsciiDigit c = true :=
  extract6Digits_shape "パスコード：987654" "987654" (by decide)

/-- C7: `extract6Digits` on the two exact example bodies of the spec. -/
theorem extract6Digits_examples :
    extract6Digits "【パスコード】345678 please use this code" = some "345678" ∧
    extract6Digits "パスコード：987654" = some "987654" :=
  ⟨by decide, by decide⟩

/-- C8: the four patterns are tried in a fixed priority order with
first-match-wins; the bare-six-digits fallback is consulted only when the
three keyword-anchored patterns all fail on the normalized text, and a
keyword-free body containing a bare `123456` yields `123456`.  (The result
is a deterministic function of the text because `extract6Digits` is a
function.) -/
theorem extract6Digits_priority :
    (∀ t d, t ≠ "" → scanBracket (normalizeJs t.data) = some d →
       extract6Digits t = some (String.mk d)) ∧
    (∀ t d, t ≠ "" → scanBracket (normalizeJs t.data) = none →
       scanColon (normalizeJs t.data) = some d →
       extract6Digits t = some (String.mk d)) ∧
    (∀ t d, t ≠ "" → scanBracket (normalizeJs t.data) = none →
       scanColon (normalizeJs t.data) = none →
       scanNear (normalizeJs t.data) = some d →
       extract6Digits t = some (String.mk d)) ∧
    (∀ t, t ≠ "" → scanBracket (normalizeJs t.data) = none →
       scanColon (normalizeJs t.data) = none →
       scanNear (normalizeJs t.data) = none →
       extract6Digits t = Option.map String.mk (scanBare (normalizeJs t.data))) ∧
    extract6Digits "your one time code 123456 awaits" = some "123456" := by
  refine ⟨?_, ?_, ?_, ?_, by decide⟩
  · intro t d ht h1
    simp only [extract6Digits, if_neg ht, h1]
  · intro t d ht h1 h2
    simp only [extract6Digits, if_neg ht, h1, h2]
  · intro t d ht h1 h2 h3
    simp only [extract6Digits, if_neg ht, h1, h2, h3]
  · intro t ht h1 h2 h3
    simp only [extract6Digits, if_neg ht, h1, h2, h3]
    cases scanBare (normalizeJs t.data) <;> rfl

/-- Witness for C8 at a concrete input. -/
theorem extract6Digits_priority_witness :
    extract6Digits "【パスコード】111111" = some (String.mk "111111".data) :=
  extract6Digits_priority.1 "【パスコード】111111" "111111".data (by decide) (by decide)



/-! ### Soundness of the `getCode` scans -/

theorem gmailScan_sound {kw want : String} {minTs : Int} :
    ∀ {msgs : List GmailMsg} {m : GmailMsg} {f : FoundInfo},
      gmailScan kw want minTs msgs = some (m, f) →
      m ∈ msgs ∧ f.internalDate = m.internalDate ∧
      (m.internalDate = 0 ∨ minTs ≤ m.internalDate) ∧
      (want ≠ "" → gmailRecipientPool m ≠ [] → want ∈ gmailRecipientPool m) := by
  intro msgs
  induction msgs with
  | nil => intro m f h; cases h
  | cons m0 rest ih =>
    intro m f h
    simp only [gmailScan] at h
    split at h
    · rcases ih h with ⟨hm, hrest⟩
      exact ⟨List.mem_cons_of_mem _ hm, hrest⟩
    · split at h
      · rcases ih h with ⟨hm, hrest⟩
        exact ⟨List.mem_cons_of_mem _ hm, hrest⟩
      · split at h
        · rcases ih h with ⟨hm, hrest⟩
          exact ⟨List.mem_cons_of_mem _ hm, hrest⟩
        · rename_i h1 h2 h3
          have hfresh : m0.internalDate = 0 ∨ minTs ≤ m0.internalDate := by
            rcases not_and_or.mp h1 with h | h
            · exact Or.inl (not_not.mp h)
            · exact Or.inr (not_lt.mp h)
          have hrcpt : want ≠ "" → gmailRecipientPool m0 ≠ [] →
              want ∈ gmailRecipientPool m0 := by
            intro hw hp
            by_contra hmem
            exact h3 ⟨hw, hp, hmem⟩
          cases hsnip : extract6Digits m0.snippet with
          | some code =>
            rw [hsnip] at h
            cases h
            exact ⟨List.mem_cons_self _ _, rfl, hfresh, hrcpt⟩
          | none =>
            rw [hsnip] at h
            cases hbody : extract6Digits m0.bodyText with
            | some code =>
              rw [hbody] at h
              cases h
              exact ⟨List.mem_cons_self _ _, rfl, hfresh, hrcpt⟩
            | none =>
              rw [hbody] at h
              rcases ih h with ⟨hm, hrest⟩
              exact ⟨List.mem_cons_of_mem _ hm, hrest⟩

theorem icloudScan_sound {kw want : String} {minTs : Int} :
    ∀ {msgs : List IcloudMsg} {m : IcloudMsg} {f : FoundInfo},
      icloudScan kw want minTs msgs = some (m, f) →
      m ∈ msgs ∧ f.internalDate = m.internalDate ∧
      (m.internalDate = 0 ∨ minTs ≤ m.internalDate) ∧
      (want ≠ "" →
        (icloudEnvPool m ≠ [] ∧ want ∈ icloudEnvPool m) ∨
        (icloudEnvPool m = [] ∧ icloudParsedPool m ≠ [] ∧ want ∈ icloudParsedPool m)) := by
  intro msgs
  induction msgs with
  | nil => intro m f h; cases h
  | cons m0 rest ih =>
    intro m f h
    simp only [icloudScan] at h
    split at h
    · rcases ih h with ⟨hm, hrest⟩
      exact ⟨List.mem_cons_of_mem _ hm, hrest⟩
    · split at h
      · rcases ih h with ⟨hm, hrest⟩
        exact ⟨List.mem_cons_of_mem _ hm, hrest⟩
      · split at h
        · rcases ih h with ⟨hm, hrest⟩
          exact ⟨List.mem_cons_of_mem _ hm, hrest⟩
        · split at h
          · -- parsed-header fallback path
            rename_i h1 h2 h3 h4
            have hfresh : m0.internalDate = 0 ∨ minTs ≤ m0.internalDate := by
              rcases not_and_or.mp h1 with h | h
              · exact Or.inl (not_not.mp h)
              · exact Or.inr (not_lt.mp h)
            split at h
            · rcases ih h with ⟨hm, hrest⟩
              exact ⟨List.mem_cons_of_mem _ hm, hrest⟩
            · split at h
              · rcases ih h with ⟨hm, hrest⟩
                exact ⟨List.mem_cons_of_mem _ hm, hrest⟩
              · rename_i hp1 hp2
                have hrcpt : want ≠ "" →
                    (icloudEnvPool m0 ≠ [] ∧ want ∈ icloudEnvPool m0) ∨
                    (icloudEnvPool m0 = [] ∧ icloudParsedPool m0 ≠ [] ∧
                     want ∈ icloudParsedPool m0) := by
                  intro _
                  exact Or.inr ⟨h4.2, hp1, not_not.mp hp2⟩
                cases hbody : icloudBodyCode m0 with
                | some f0 =>
                  have hid : f0.internalDate = m0.internalDate := by
                    simp only [icloudBodyCode] at hbody
                    split at hbody
                    · cases hbody; rfl
                    · split at hbody
                      · cases hbody; rfl
                      · cases hbody
                  rw [hbody] at h
                  cases h
                  exact ⟨List.mem_cons_self _ _, hid, hfresh, hrcpt⟩
                | none =>
                  rw [hbody] at h
                  rcases ih h with ⟨hm, hrest⟩
                  exact ⟨List.mem_cons_of_mem _ hm, hrest⟩
          · -- envelope-verified (or no filter) path
            rename_i h1 h2 h3 h4
            have hfresh : m0.internalDate = 0 ∨ minTs ≤ m0.internalDate := by
              rcases not_and_or.mp h1 with h | h
              · exact Or.inl (not_not.mp h)
              · exact Or.inr (not_lt.mp h)
            have hrcpt : want ≠ "" →
                (icloudEnvPool m0 ≠ [] ∧ want ∈ icloudEnvPool m0) ∨
                (icloudEnvPool m0 = [] ∧ icloudParsedPool m0 ≠ [] ∧
                 want ∈ icloudParsedPool m0) := by
              intro hw
              have henv : icloudEnvPool m0 ≠ [] := by
                by_contra he
                exact h4 ⟨hw, he⟩
              have hmem : want ∈ icloudEnvPool m0 := by
                by_contra hmem
                exact h3 ⟨hw, henv, hmem⟩
              exact Or.inl ⟨henv, hmem⟩
            cases hbody : icloudBodyCode m0 with
            | some f0 =>
              have hid : f0.internalDate = m0.internalDate := by
                simp only [icloudBodyCode] at hbody
                split at hbody
                · cases hbody; rfl
                · split at hbody
                  · cases hbody; rfl
                  · cases hbody
              rw [hbody] at h
              cases h
              exact ⟨List.mem_cons_self _ _, hid, hfresh, hrcpt⟩
            | none =>
              rw [hbody] at h
              rcases ih h with ⟨hm, hrest⟩
              exact ⟨List.mem_cons_of_mem _ hm, hrest⟩


/-! ### C1: freshness of returned codes -/

/-- C1 counterexample: the Gmail bridge returns a code taken from a
message whose `internalDate` is `0` (missing), which is strictly below the
claimed bound `max(w, now - LAST_MINUTES*60*1000)` for `w = 0`,
`now = 400000`, `LAST_MINUTES = 5`. -/
theorem returned_code_freshness_counterexample :
    (gmailGetCode SUBJECT_KEYWORD 5 400000 "" 0 [staleGmailMsg]).found = true ∧
    (gmailGetCode SUBJECT_KEYWORD 5 400000 "" 0 [staleGmailMsg]).code = some "123456" ∧
    (gmailGetCode SUBJECT_KEYWORD 5 400000 "" 0 [staleGmailMsg]).internalDate = some 0 ∧
    ¬ (max (0 : Int) (400000 - 5 * 60 * 1000) ≤ 0) := by decide

/-- C1 (amended): whenever `getCode` returns `{found: true}`, the
`internalDate` of the message the code came from is either `0` (a missing
timestamp bypasses the freshness check) or at least the bridge's
effective lower bound: `max(w, now - L*60*1000)` for the Gmail bridge and
`max(clamp(w), now - L*60*1000)` for the iCloud bridge, where `clamp`
replaces `w` by `now` when `w > now + 60000`. -/
theorem returned_code_freshness :
    (∀ (kw : String) (lastMinutes now : Int) (toEmail : String) (afterTs : Int)
       (msgs : List GmailMsg) (d : Int),
       (gmailGetCode kw lastMinutes now toEmail afterTs msgs).found = true →
       (gmailGetCode kw lastMinutes now toEmail afterTs msgs).internalDate = some d →
       d = 0 ∨ gmailMinTs afterTs now lastMinutes ≤ d) ∧
    (∀ (kw : String) (lastMinutes : Int) (scanLimit : Nat) (now : Int) (toEmail : String)
       (afterTs : Int) (msgs : List IcloudMsg) (d : Int),
       (icloudGetCode kw lastMinutes scanLimit now toEmail afterTs msgs).found = true →
       (icloudGetCode kw lastMinutes scanLimit now toEmail afterTs msgs).internalDate = some d →
       d = 0 ∨ icloudMinTs afterTs now lastMinutes ≤ d) := by
  constructor
  · intro kw lastMinutes now toEmail afterTs msgs d hf hd
    simp only [gmailGetCode] at hf hd
    split at hf
    · simp at hf
    · rename_i hne
      rw [if_neg hne] at hd
      split at hf
      · rename_i m0 f0 heq
        rw [heq] at hd
        simp only at hd
        cases hd
        rcases gmailScan_sound heq with ⟨-, hid, hfresh, -⟩
        rw [hid]
        exact hfresh
      · simp at hf
  · intro kw lastMinutes scanLimit now toEmail afterTs msgs d hf hd
    simp only [icloudGetCode] at hf hd
    split at hf
    · simp at hf
    · rename_i hne
      rw [if_neg hne] at hd
      split at hf
      · rename_i m0 f0 heq
        rw [heq] at hd
        simp only at hd
        cases hd
        rcases icloudScan_sound heq with ⟨-, hid, hfresh, -⟩
        rw [hid]
        exact hfresh
      · simp at hf

/-- Witness for C1 at a concrete input with a present timestamp. -/
theorem returned_code_freshness_witness :
    (350000 : Int) = 0 ∨ gmailMinTs 0 400000 5 ≤ 350000 :=
  returned_code_freshness.1 SUBJECT_KEYWORD 5 400000 "" 0 [bareGmailMsg] 350000
    (by decide) (by decide)


/-! ### C2: recipient gating -/

/-- C2 counterexample: with filter `b@x.com`, the Gmail bridge returns a
code from a message whose only recipient information is a Cc header
naming `c@x.com`; the claim's union (To/Cc/Bcc plus fallbacks) is
non-empty and does not contain the filter, yet the code is returned,
because the Gmail bridge never reads Cc/Bcc. -/
theorem recipient_gate_counterexample :
    (gmailGetCode SUBJECT_KEYWORD 5 400000 "b@x.com" 0 [ccOnlyGmailMsg]).found = true ∧
    (gmailGetCode SUBJECT_KEYWORD 5 400000 "b@x.com" 0 [ccOnlyGmailMsg]).code = some "123456" ∧
    specRecipientUnion ccOnlyGmailMsg = ["c@x.com"] ∧
    jsTrim (lowerStr "b@x.com") = "b@x.com" ∧
    "b@x.com" ∉ specRecipientUnion ccOnlyGmailMsg := by decide

/-- C2 (amended): with a non-empty recipient filter, a code is returned
from a message only if the lowercased filter belongs to the recipient
union that bridge actually consults - To/Delivered-To/X-Original-To for
the Gmail bridge (no Cc/Bcc), and envelope To/Cc/Bcc with the
parsed-header fallback (To/Cc/Bcc/To-header/Delivered-To/X-Original-To)
for the iCloud bridge - whenever that union is non-empty. -/
theorem recipient_gate_respected :
    (∀ (kw : String) (lastMinutes now : Int) (toEmail : String) (afterTs : Int)
       (msgs : List GmailMsg),
       (gmailGetCode kw lastMinutes now toEmail afterTs msgs).found = true →
       ∃ m, m ∈ msgs ∧
         (gmailGetCode kw lastMinutes now toEmail afterTs msgs).internalDate =
           some m.internalDate ∧
         (jsTrim (lowerStr toEmail) ≠ "" → gmailRecipientPool m ≠ [] →
            jsTrim (lowerStr toEmail) ∈ gmailRecipientPool m)) ∧
    (∀ (kw : String) (lastMinutes : Int) (scanLimit : Nat) (now : Int) (toEmail : String)
       (afterTs : Int) (msgs : List IcloudMsg),
       (icloudGetCode kw lastMinutes scanLimit now toEmail afterTs msgs).found = true →
       ∃ m, m ∈ msgs ∧
         (icloudGetCode kw lastMinutes scanLimit now toEmail afterTs msgs).internalDate =
           some m.internalDate ∧
         (jsTrim (lowerStr toEmail) ≠ "" →
            icloudEnvPool m ++ icloudParsedPool m ≠ [] →
            jsTrim (lowerStr toEmail) ∈ icloudEnvPool m ++ icloudParsedPool m)) := by
  constructor
  · intro kw lastMinutes now toEmail afterTs msgs hf
    simp only [gmailGetCode] at hf ⊢
    split at hf
    · simp at hf
    · rename_i hne
      rw [if_neg hne]
      split at hf
      · rename_i m0 f0 heq
        rcases gmailScan_sound heq with ⟨hm, hid, -, hrcpt⟩
        exact ⟨m0, hm, by rw [hid], hrcpt⟩
      · simp at hf
  · intro kw lastMinutes scanLimit now toEmail afterTs msgs hf
    simp only [icloudGetCode] at hf ⊢
    split at hf
    · simp at hf
    · rename_i hne
      rw [if_neg hne]
      split at hf
      · rename_i m0 f0 heq
        rcases icloudScan_sound heq with ⟨hm, hid, -, hrcpt⟩
        refine ⟨m0, ?_, by rw [hid], ?_⟩
        · rw [List.mem_reverse] at hm
          split at hm
          · exact hm
          · exact List.drop_subset _ _ hm
        · intro hw hu
          rcases hrcpt hw with ⟨-, hmem⟩ | ⟨-, -, hmem⟩
          · exact List.mem_append_left _ hmem
          · exact List.mem_append_right _ hmem
      · simp at hf

/-- Witness for C2 at a concrete matching input. -/
theorem recipient_gate_respected_witness :
    ∃ m, m ∈ [matchGmailMsg] ∧
      (gmailGetCode SUBJECT_KEYWORD 5 400000 "b@x.com" 0 [matchGmailMsg]).internalDate =
        some m.internalDate ∧
      (jsTrim (lowerStr "b@x.com") ≠ "" → gmailRecipientPool m ≠ [] →
         jsTrim (lowerStr "b@x.com") ∈ gmailRecipientPool m) :=
  recipient_gate_respected.1 SUBJECT_KEYWORD 5 400000 "b@x.com" 0 [matchGmailMsg]
    (by decide)

/-! ### C5: the two bridges disagree on unverifiable recipients -/

/-- C5: with a non-empty recipient filter, the iCloud bridge never
returns a code from a message whose recipient pools are all empty
(`recipient_unknown_reject`), while the Gmail bridge treats such a
message as eligible and returns its code; the bridges are therefore not
equivalent on such inputs, demonstrated on twin messages. -/
theorem unverifiable_recipient_divergence :
    (∀ (kw want : String) (minTs : Int) (msgs : List IcloudMsg) (m : IcloudMsg)
       (f : FoundInfo),
       want ≠ "" → icloudScan kw want minTs msgs = some (m, f) →
       ¬ (icloudEnvPool m = [] ∧ icloudParsedPool m = [])) ∧
    ((gmailGetCode SUBJECT_KEYWORD 5 400000 "b@x.com" 0 [bareGmailMsg]).found = true ∧
     (gmailGetCode SUBJECT_KEYWORD 5 400000 "b@x.com" 0 [bareGmailMsg]).code =
       some "654321" ∧
     gmailRecipientPool bareGmailMsg = []) ∧
    ((icloudGetCode SUBJECT_KEYWORD 5 20 400000 "b@x.com" 0 [bareIcloudMsg]).found = false ∧
     (icloudGetCode SUBJECT_KEYWORD 5 20 400000 "b@x.com" 0 [bareIcloudMsg]).code = none ∧
     icloudEnvPool bareIcloudMsg = [] ∧ icloudParsedPool bareIcloudMsg = [] ∧
     icloudBodyCode bareIcloudMsg ≠ none) := by
  refine ⟨?_, by decide, by decide⟩
  intro kw want minTs msgs m f hw hscan hpools
  rcases (icloudScan_sound hscan).2.2.2 hw with ⟨henv, -⟩ | ⟨-, hparsed, -⟩
  · exact henv hpools.1
  · exact hparsed hpools.2

/-- Witness for C5 at a concrete input where the iCloud scan succeeds. -/
theorem unverifiable_recipient_divergence_witness :
    ¬ (icloudEnvPool verifiedIcloudMsg = [] ∧ icloudParsedPool verifiedIcloudMsg = []) :=
  unverifiable_recipient_divergence.1 SUBJECT_KEYWORD "a@b.c" 100000 [verifiedIcloudMsg]
    verifiedIcloudMsg ⟨"654321", "text", 350000⟩ (by decide) (by decide)

/-! ### C6: not-found responses -/

/-- The `no_code_after_` diagnostic is never the empty string. -/
theorem no_code_reason_ne_empty (t : String) : "no_code_after_" ++ t ≠ "" := by
  intro h
  have hlen := congrArg String.length h
  rw [String.length_append] at hlen
  have h14 : ("no_code_after_" : String).length = 14 := rfl
  have h0 : ("" : String).length = 0 := rfl
  rw [h14, h0] at hlen
  omega

/-- C6: when `getCode` finds nothing, the `/code` handler answers with
HTTP 200 and a body with `found = false`, `code = null` and a non-empty
reason that is either the no-messages diagnostic or the
no-code-after-timestamp diagnostic - on both bridges. -/
theorem code_not_found_response :
    (∀ (env : GmailEnv) (kw : String) (lastMinutes now : Int) (toEmail : String)
       (afterTs : Int) (msgs : List GmailMsg) (r : CodeResult),
       authorize env = .ok () →
       (gmailHandleCode env kw lastMinutes now toEmail afterTs msgs).1 = 200 ∧
       ((gmailHandleCode env kw lastMinutes now toEmail afterTs msgs).2 = some r →
        r.found = false →
        r.code = none ∧ ∃ s, r.reason = some s ∧ s ≠ "" ∧
          (s = "no_messages" ∨ ∃ ts, s = "no_code_after_" ++ ts))) ∧
    (∀ (env : IcloudEnv) (kw : String) (lastMinutes : Int) (scanLimit : Nat) (now : Int)
       (toEmail : String) (afterTs : Int) (msgs : List IcloudMsg) (r : CodeResult),
       icloudCredsOk env = true →
       (icloudHandleCode env kw lastMinutes scanLimit now toEmail afterTs msgs).1 = 200 ∧
       ((icloudHandleCode env kw lastMinutes scanLimit now toEmail afterTs msgs).2 = some r →
        r.found = false →
        r.code = none ∧ ∃ s, r.reason = some s ∧ s ≠ "" ∧
          (s = "no_messages" ∨ ∃ ts, s = "no_code_after_" ++ ts))) := by
  constructor
  · intro env kw lastMinutes now toEmail afterTs msgs r hauth
    constructor
    · simp only [gmailHandleCode, hauth]
    · intro hr hf
      simp only [gmailHandleCode, hauth] at hr
      cases hr
      simp only [gmailGetCode] at hf ⊢
      by_cases hm : msgs = []
      · rw [if_pos hm] at hf ⊢
        exact ⟨rfl, "no_messages", rfl, by decide, Or.inl rfl⟩
      · rw [if_neg hm] at hf ⊢
        split at hf
        · simp at hf
        · exact ⟨rfl, "no_code_after_" ++ isoOfMs (gmailMinTs afterTs now lastMinutes),
            rfl, no_code_reason_ne_empty _, Or.inr ⟨_, rfl⟩⟩
  · intro env kw lastMinutes scanLimit now toEmail afterTs msgs r hcred
    constructor
    · simp only [icloudHandleCode, hcred, if_true]
    · intro hr hf
      simp only [icloudHandleCode, hcred, if_true] at hr
      cases hr
      simp only [icloudGetCode] at hf ⊢
      by_cases hm : msgs = []
      · rw [if_pos hm] at hf ⊢
        exact ⟨rfl, "no_messages", rfl, by decide, Or.inl rfl⟩
      · rw [if_neg hm] at hf ⊢
        split at hf
        · simp at hf
        · exact ⟨rfl, "no_code_after_" ++ isoOfMs (icloudMinTs afterTs now lastMinutes),
            rfl, no_code_reason_ne_empty _, Or.inr ⟨_, rfl⟩⟩


/-- Witness for C6 at a concrete empty-mailbox request. -/
theorem code_not_found_response_witness :
    (gmailHandleCode ⟨true, true, true⟩ SUBJECT_KEYWORD 5 400000 "" 0 []).1 = 200 ∧
    ((gmailHandleCode ⟨true, true, true⟩ SUBJECT_KEYWORD 5 400000 "" 0 []).2 =
       some ⟨false, none, none, none, some "no_messages", none, none⟩ →
     (⟨false, none, none, none, some "no_messages", none, none⟩ : CodeResult).found = false →
     (⟨false, none, none, none, some "no_messages", none, none⟩ : CodeResult).code = none ∧
     ∃ s, (⟨false, none, none, none, some "no_messages", none, none⟩ : CodeResult).reason =
         some s ∧ s ≠ "" ∧
       (s = "no_messages" ∨ ∃ ts, s = "no_code_after_" ++ ts)) :=
  code_not_found_response.1 ⟨true, true, true⟩ SUBJECT_KEYWORD 5 400000 "" 0 []
    ⟨false, none, none, none, some "no_messages", none, none⟩ rfl


/-! ### C3: watermark clamping -/

/-- C3 counterexample: with `afterTs = now + 1 > now`, neither bridge's
effective lower bound equals `now`: the Gmail bridge never clamps, and
the iCloud bridge clamps only beyond `now + 60000`. -/
theorem watermark_clamp_counterexample :
    (1000000 : Int) < 1000001 ∧
    gmailMinTs 1000001 1000000 5 ≠ 1000000 ∧
    icloudMinTs 1000001 1000000 5 ≠ 1000000 := by decide

/-- C3 (amended): the Gmail bridge applies no clamp at all - for any
future watermark the effective bound is the watermark itself; the iCloud
bridge clamps only when the watermark exceeds `now + 60000` (one minute
of tolerated skew), in which case the bound is
`max(now, now - L*60*1000) = now`; within the tolerance it uses
`max(afterTs, now - L*60*1000)` unclamped. -/
theorem watermark_clamp :
    (∀ (afterTs now lastMinutes : Int), now + 60000 < afterTs → 0 ≤ lastMinutes →
       icloudMinTs afterTs now lastMinutes = now) ∧
    (∀ (afterTs now lastMinutes : Int), afterTs ≤ now + 60000 →
       icloudMinTs afterTs now lastMinutes = max afterTs (now - lastMinutes * 60 * 1000)) ∧
    (∀ (afterTs now lastMinutes : Int), now < afterTs → 0 ≤ lastMinutes →
       gmailMinTs afterTs now lastMinutes = afterTs) := by
  refine ⟨?_, ?_, ?_⟩
  · intro a n L h hL
    simp only [icloudMinTs, icloudClampAfter, if_pos h]
    rw [max_eq_left]
    omega
  · intro a n L h
    simp only [icloudMinTs, icloudClampAfter, if_neg (not_lt.mpr h)]
  · intro a n L h hL
    simp only [gmailMinTs]
    rw [max_eq_left]
    omega

/-- Witness for C3 at a concrete skewed watermark. -/
theorem watermark_clamp_witness : icloudMinTs 2000000 1000000 5 = 1000000 :=
  watermark_clamp.1 2000000 1000000 5 (by decide) (by decide)

/-! ### C4: credentials and startup -/

/-- C4 counterexample: both bridges are listening while their credentials
are absent - `.listen` runs unconditionally at module load. -/
theorem startup_credentials_counterexample :
    gmailServerListens ⟨false, false, false⟩ = true ∧
    (⟨false, false, false⟩ : GmailEnv).credentialsExists = false ∧
    icloudServerListens ⟨"", ""⟩ = true ∧
    icloudCredsOk ⟨"", ""⟩ = false := by decide

/-- C4 (amended): missing mailbox credentials are not a startup failure:
both bridges start listening unconditionally; instead, every `/code`
request made while credentials are missing is answered with HTTP 500 and
no code result. -/
theorem startup_credentials :
    (∀ (env : GmailEnv), env.credentialsExists = false ∨ env.tokenExists = false →
       gmailServerListens env = true ∧
       ∀ (kw : String) (lastMinutes now : Int) (toEmail : String) (afterTs : Int)
         (msgs : List GmailMsg),
         gmailHandleCode env kw lastMinutes now toEmail afterTs msgs = (500, none)) ∧
    (∀ (env : IcloudEnv), icloudCredsOk env = false →
       icloudServerListens env = true ∧
       ∀ (kw : String) (lastMinutes : Int) (scanLimit : Nat) (now : Int) (toEmail : String)
         (afterTs : Int) (msgs : List IcloudMsg),
         icloudHandleCode env kw lastMinutes scanLimit now toEmail afterTs msgs =
           (500, none)) := by
  constructor
  · intro env h
    refine ⟨rfl, ?_⟩
    intro kw lastMinutes now toEmail afterTs msgs
    rcases h with h | h
    · simp [gmailHandleCode, authorize, h]
    · cases hc : env.credentialsExists
      · simp [gmailHandleCode, authorize, hc]
      · simp [gmailHandleCode, authorize, hc, h]
  · intro env h
    refine ⟨rfl, ?_⟩
    intro kw lastMinutes scanLimit now toEmail afterTs msgs
    simp [icloudHandleCode, h]

/-- Witness for C4 at a concrete credential-less environment. -/
theorem startup_credentials_witness :
    gmailHandleCode ⟨false, true, true⟩ SUBJECT_KEYWORD 5 400000 "" 0 [] = (500, none) :=
  (startup_credentials.1 ⟨false, true, true⟩ (Or.inl rfl)).2 SUBJECT_KEYWORD 5 400000 "" 0 []


/-! ### C10: win-dominance of the lottery result map -/

theorem updateOne_o_iff (w l : Bool) (mp : ResultMap) (e a : String) :
    (updateOne w l mp e) a = some 'o' ↔ (mp a = some 'o' ∨ (w = true ∧ a = e)) := by
  have hxo : (some 'x' : Option Char) ≠ some 'o' := by decide
  cases w
  · cases l
    · simp [updateOne]
    · by_cases hcur : mp e = some 'o'
      · simp [updateOne, hcur]
      · by_cases hae : a = e
        · subst hae
          simp [updateOne, hcur, setResult, hxo]
        · simp [updateOne, hcur, setResult, hae]
  · by_cases hae : a = e
    · subst hae
      simp [updateOne, setResult]
    · simp [updateOne, setResult, hae]

theorem lotteryUpdate_o_iff (w l : Bool) : ∀ (ts : List String) (mp : ResultMap) (a : String),
    (lotteryUpdate w l ts mp) a = some 'o' ↔ (mp a = some 'o' ∨ (w = true ∧ a ∈ ts)) := by
  intro ts
  induction ts with
  | nil => intro mp a; simp [lotteryUpdate]
  | cons e ts ih =>
    intro mp a
    have hfold : lotteryUpdate w l (e :: ts) mp = lotteryUpdate w l ts (updateOne w l mp e) :=
      rfl
    rw [hfold, ih (updateOne w l mp e) a, updateOne_o_iff]
    simp only [List.mem_cons]
    tauto

theorem gmailLotteryStep_o_iff (mp : ResultMap) (m : LotteryMsg) (a : String) :
    (gmailLotteryStep mp m) a = some 'o' ↔
      (mp a = some 'o' ∨ (gmailLotteryWin m = true ∧ a ∈ gmailLotteryTargets m)) := by
  simp only [gmailLotteryStep]
  split
  · rename_i h
    rw [Bool.and_eq_true, Bool.not_eq_true', Bool.not_eq_true'] at h
    simp [h.1]
  · split
    · rename_i h htgt
      simp [htgt]
    · exact lotteryUpdate_o_iff _ _ _ mp a

theorem icloudLotteryStep_o_iff (mp : ResultMap) (m : IcloudLotteryMsg) (a : String) :
    (icloudLotteryStep mp m) a = some 'o' ↔
      (mp a = some 'o' ∨ (icloudLotteryWin m = true ∧ a ∈ icloudLotteryTargets m)) := by
  simp only [icloudLotteryStep]
  split
  · rename_i h
    rw [Bool.and_eq_true, Bool.not_eq_true', Bool.not_eq_true'] at h
    simp [h.1]
  · exact lotteryUpdate_o_iff _ _ _ mp a

theorem foldLottery_o_iff {α : Type} (step : ResultMap → α → ResultMap)
    (W : α → Bool) (T : α → List String)
    (hstep : ∀ mp m a, (step mp m) a = some 'o' ↔
      (mp a = some 'o' ∨ (W m = true ∧ a ∈ T m))) :
    ∀ (msgs : List α) (mp : ResultMap) (a : String),
      (msgs.foldl step mp) a = some 'o' ↔
        (mp a = some 'o' ∨ ∃ m ∈ msgs, W m = true ∧ a ∈ T m) := by
  intro msgs
  induction msgs with
  | nil => intro mp a; simp
  | cons m msgs ih =>
    intro mp a
    rw [List.foldl_cons, ih, hstep]
    constructor
    · rintro ((h | h) | ⟨m', hm', hw, ht⟩)
      · exact Or.inl h
      · exact Or.inr ⟨m, List.mem_cons_self _ _, h.1, h.2⟩
      · exact Or.inr ⟨m', List.mem_cons_of_mem _ hm', hw, ht⟩
    · rintro (h | ⟨m', hm', hw, ht⟩)
      · exact Or.inl (Or.inl h)
      · rcases List.mem_cons.mp hm' with rfl | hm'
        · exact Or.inl (Or.inr ⟨hw, ht⟩)
        · exact Or.inr ⟨m', hm', hw, ht⟩

/-- C10: in all three lottery aggregation loops, a `'o'` (win) entry is
never overwritten by a later message, and the final map assigns `'o'` to
an address exactly when some processed win-classified message targeted
that address. -/
theorem lottery_win_dominance :
    (∀ (mp : ResultMap) (m : LotteryMsg) (a : String),
       mp a = some 'o' → (gmailLotteryStep mp m) a = some 'o') ∧
    (∀ (mp : ResultMap) (m : IcloudLotteryMsg) (a : String),
       mp a = some 'o' → (icloudLotteryStep mp m) a = some 'o') ∧
    (∀ (msgs : List LotteryMsg) (a : String),
       gmailLotteryMap msgs a = some 'o' ↔
         ∃ m ∈ msgs, gmailLotteryWin m = true ∧ a ∈ gmailLotteryTargets m) ∧
    (∀ (msgs : List IcloudLotteryMsg) (a : String),
       icloudLotteryMap msgs a = some 'o' ↔
         ∃ m ∈ msgs, icloudLotteryWin m = true ∧ a ∈ icloudLotteryTargets m) := by
  refine ⟨?_, ?_, ?_, ?_⟩
  · intro mp m a h
    exact (gmailLotteryStep_o_iff mp m a).mpr (Or.inl h)
  · intro mp m a h
    exact (icloudLotteryStep_o_iff mp m a).mpr (Or.inl h)
  · intro msgs a
    have := foldLottery_o_iff gmailLotteryStep gmailLotteryWin gmailLotteryTargets
      gmailLotteryStep_o_iff msgs (fun _ => none) a
    simpa [gmailLotteryMap] using this
  · intro msgs a
    have := foldLottery_o_iff icloudLotteryStep icloudLotteryWin icloudLotteryTargets
      icloudLotteryStep_o_iff msgs (fun _ => none) a
    simpa [icloudLotteryMap] using this

/-- Witness for C10: a stored win survives a later lose mail for the same
address. -/
theorem lottery_win_dominance_witness :
    (gmailLotteryStep (fun k => if k = "a@b.c" then some 'o' else none) loseLotteryMsg)
      "a@b.c" = some 'o' :=
  lottery_win_dominance.1 (fun k => if k = "a@b.c" then some 'o' else none)
    loseLotteryMsg "a@b.c" (by decide)

end PokemonBridge
